import Mathlib

/-!
Verification of the AgentKeeper cognitive-persistence layer.

Shallow embedding of:
- `src/cso/types.py` (`Fact`, `CognitiveStateObject`, `add_fact`, `to_dict`, `from_dict`),
- `src/cre/engine.py` (`estimate_tokens`, `CognitiveReconstructionEngine`:
  `_count_tokens_for_all_facts`, `prioritize`),
- `agentkeeper.py` (`Agent.forget`).

Python's stable `sorted` with a key is modelled by `List.mergeSort` with the
total preorder induced by the key; Python ints used as budgets are modelled by
`Int` (budgets can be negative), token counts by `Nat`.
-/

namespace AgentKeeper

/-- `Fact` dataclass from src/cso/types.py: id, content, critical flag and a
token count (dataclass default 0, recomputed by the engine). -/
structure Fact where
  id : String
  content : String
  critical : Bool
  token_count : Nat
  deriving Repr, DecidableEq

/-- `Fact.create` from src/cso/types.py: fresh fact with the dataclass default
`token_count = 0`. The uuid is passed explicitly since it is an effect. -/
def Fact.create (id content : String) (critical : Bool) : Fact :=
  ⟨id, content, critical, 0⟩

/-- `estimate_tokens` from src/cre/engine.py: `max(1, len(text) // 4)`
(Python floor division on a nonnegative length is `Nat` division). -/
def estimate_tokens (text : String) : Nat :=
  max 1 (text.length / 4)

/-- First component of the Python sort key `(0 if f.critical else 1, f.token_count)`. -/
def critRank (f : Fact) : Nat :=
  if f.critical then 0 else 1

/-- The total preorder induced by the Python sort key
`(0 if f.critical else 1, f.token_count)`: lexicographic comparison. -/
def factLE (f g : Fact) : Bool :=
  decide (critRank f < critRank g ∨ (critRank f = critRank g ∧ f.token_count ≤ g.token_count))

/-- `sorted(self.cso.memory_facts, key=lambda f: (0 if f.critical else 1, f.token_count))`
from `prioritize`: Python's stable sort, modelled by stable `mergeSort`. -/
def sortFacts (facts : List Fact) : List Fact :=
  facts.mergeSort factLE

/-- The backward scan of `prioritize`'s eviction branch:
`for i in range(len(selected) - 1, -1, -1): if not selected[i].critical: ... pop(i); break`.
Returns the list with its last non-critical element removed, together with
that element, or `none` when every element is critical. -/
def popLastNoncritical : List Fact → Option (List Fact × Fact)
  | [] => none
  | f :: rest =>
    match popLastNoncritical rest with
    | some (rest', g) => some (f :: rest', g)
    | none => if f.critical then none else some (rest, f)

/-- One iteration of the selection loop of `prioritize` (src/cre/engine.py):
accept the fact when it fits; otherwise, for a critical fact, evict the last
non-critical selected fact and retry the fit test. State is
`(selected, used_tokens)`. -/
def prioStep (budget : Int) (st : List Fact × Int) (f : Fact) : List Fact × Int :=
  if st.2 + f.token_count ≤ budget then
    (st.1 ++ [f], st.2 + f.token_count)
  else if f.critical then
    let st' : List Fact × Int :=
      match popLastNoncritical st.1 with
      | some (sel', g) => (sel', st.2 - g.token_count)
      | none => st
    if st'.2 + f.token_count ≤ budget then
      (st'.1 ++ [f], st'.2 + f.token_count)
    else st'
  else st

/-- `MODEL_TOKEN_LIMITS` from src/cre/engine.py. -/
def MODEL_TOKEN_LIMITS : List (String × Int) :=
  [("gpt-4", 6000), ("gpt-4-turbo", 8000),
   ("claude-3-5-sonnet-20241022", 8000), ("claude-3-haiku", 4000)]

/-- `DEFAULT_TOKEN_LIMIT` from src/cre/engine.py. -/
def DEFAULT_TOKEN_LIMIT : Int := 4000

/-- `self.MODEL_TOKEN_LIMITS.get(target_model, self.DEFAULT_TOKEN_LIMIT)`. -/
def modelTokenLimit (target_model : String) : Int :=
  (MODEL_TOKEN_LIMITS.lookup target_model).getD DEFAULT_TOKEN_LIMIT

/-- `budget = max_tokens or self.MODEL_TOKEN_LIMITS.get(...)` from `prioritize`:
Python `or` falls through on falsy values, so both `None` and `0` resolve to
the per-model limit. -/
def resolveBudget (target_model : String) (max_tokens : Option Int) : Int :=
  match max_tokens with
  | none => modelTokenLimit target_model
  | some m => if m = 0 then modelTokenLimit target_model else m

/-- The selection loop of `prioritize` run over an explicit budget:
sort, then fold the loop body from `selected = []`, `used_tokens = 0`,
returning the selected list. -/
def prioritizeWith (facts : List Fact) (budget : Int) : List Fact :=
  ((sortFacts facts).foldl (prioStep budget) ([], 0)).1

/-- `CognitiveReconstructionEngine.prioritize` (src/cre/engine.py), over the
fact list held by the engine's state object. -/
def prioritize (facts : List Fact) (target_model : String) (max_tokens : Option Int) : List Fact :=
  prioritizeWith facts (resolveBudget target_model max_tokens)

/-- `fact.token_count = estimate_tokens(fact.content)`: the per-fact refresh
performed by `_count_tokens_for_all_facts`. -/
def refreshFact (f : Fact) : Fact :=
  { f with token_count := estimate_tokens f.content }

/-- `CognitiveReconstructionEngine._count_tokens_for_all_facts`
(src/cre/engine.py): recompute `token_count` for every fact. -/
def countTokensForAllFacts (facts : List Fact) : List Fact :=
  facts.map refreshFact

/-- A full selection run as performed by every caller in agentkeeper.py
(`ask`, `stats`): construct `CognitiveReconstructionEngine(cso)` — whose
constructor runs `_count_tokens_for_all_facts` — then call `prioritize`. -/
def enginePrioritize (facts : List Fact) (target_model : String) (max_tokens : Option Int) : List Fact :=
  prioritize (countTokensForAllFacts facts) target_model max_tokens

/-- `CognitiveStateObject` dataclass from src/cso/types.py. Timestamps are
ISO strings produced by `datetime.utcnow().isoformat()`. -/
structure CognitiveStateObject where
  agent_id : String
  memory_facts : List Fact
  created_at : String
  updated_at : String
  deriving Repr, DecidableEq

/-- `CognitiveStateObject.add_fact` (src/cso/types.py): append a fresh fact
and set `updated_at = datetime.utcnow().isoformat()`. The current time and
the fresh uuid are passed explicitly since they are effects. -/
def add_fact (cso : CognitiveStateObject) (id content : String) (critical : Bool)
    (now : String) : CognitiveStateObject :=
  { cso with
    memory_facts := cso.memory_facts ++ [Fact.create id content critical]
    updated_at := now }

/-- `Agent.forget` (agentkeeper.py):
`self._cso.memory_facts = [f for f in self._cso.memory_facts if f.id != fact_id]`.
No other field of the state object is touched. -/
def forget (cso : CognitiveStateObject) (fact_id : String) : CognitiveStateObject :=
  { cso with memory_facts := cso.memory_facts.filter (fun f => f.id ≠ fact_id) }

/-- The effect of `CognitiveReconstructionEngine.__init__` on the state object:
`_count_tokens_for_all_facts` rewrites each fact's `token_count` in place and
touches nothing else. -/
def engineInitState (cso : CognitiveStateObject) : CognitiveStateObject :=
  { cso with memory_facts := countTokensForAllFacts cso.memory_facts }

/-- The per-fact dictionary written by `CognitiveStateObject.to_dict`.
`token_count` is optional on the reading side (`f.get("token_count", 0)` in
`from_dict`), hence `Option Nat`. -/
structure FactDict where
  id : String
  content : String
  critical : Bool
  token_count : Option Nat
  deriving Repr, DecidableEq

/-- The dictionary written by `CognitiveStateObject.to_dict`. -/
structure CSODict where
  agent_id : String
  memory_facts : List FactDict
  created_at : String
  updated_at : String
  deriving Repr, DecidableEq

/-- The per-fact serialization inside `to_dict`: all four keys are written. -/
def factToDict (f : Fact) : FactDict :=
  ⟨f.id, f.content, f.critical, some f.token_count⟩

/-- `CognitiveStateObject.to_dict` (src/cso/types.py). -/
def to_dict (cso : CognitiveStateObject) : CSODict :=
  ⟨cso.agent_id, cso.memory_facts.map factToDict, cso.created_at, cso.updated_at⟩

/-- The per-fact deserialization inside `from_dict`:
`token_count=f.get("token_count", 0)`. -/
def factFromDict (d : FactDict) : Fact :=
  ⟨d.id, d.content, d.critical, d.token_count.getD 0⟩

/-- `CognitiveStateObject.from_dict` (src/cso/types.py). -/
def from_dict (d : CSODict) : CognitiveStateObject :=
  ⟨d.agent_id, d.memory_facts.map factFromDict, d.created_at, d.updated_at⟩

/-- Modelled from the spec: the reference cost formula
`max(1, ceil(length(text) / 4))`, written with `Nat` ceiling division. -/
def specEstimateCeil (text : String) : Nat :=
  max 1 ((text.length + 3) / 4)

/-- The greedy selection loop body without the eviction branch: accept a fact
exactly when it fits the remaining budget. Used to state that `prioritize`'s
eviction branch is unreachable. -/
def greedyStep (budget : Int) (st : List Fact × Int) (f : Fact) : List Fact × Int :=
  if st.2 + f.token_count ≤ budget then
    (st.1 ++ [f], st.2 + f.token_count)
  else st

/-- `prioritize` with the eviction branch removed. -/
def prioritizeNoEvict (facts : List Fact) (budget : Int) : List Fact :=
  ((sortFacts facts).foldl (greedyStep budget) ([], 0)).1

/-- Two facts that agree on everything except possibly the stored
`token_count`. -/
def FactSameContent (f g : Fact) : Prop :=
  f.id = g.id ∧ f.content = g.content ∧ f.critical = g.critical

/-! ### Properties of the sort order -/

lemma factLE_trans : ∀ a b c : Fact, factLE a b = true → factLE b c = true → factLE a c = true := by
  intro a b c hab hbc
  simp only [factLE, decide_eq_true_eq] at *
  rcases hab with h | ⟨h1, h2⟩ <;> rcases hbc with h' | ⟨h1', h2'⟩ <;>
    [left; left; left; right] <;> omega

lemma factLE_total : ∀ a b : Fact, (factLE a b || factLE b a) = true := by
  intro a b
  simp only [factLE, Bool.or_eq_true, decide_eq_true_eq]
  rcases Nat.lt_trichotomy (critRank a) (critRank b) with h | h | h
  · left; left; omega
  · rcases Nat.le_total a.token_count b.token_count with h' | h'
    · left; right; exact ⟨h, h'⟩
    · right; right; exact ⟨h.symm, h'⟩
  · right; left; omega

lemma sortFacts_perm (facts : List Fact) : (sortFacts facts).Perm facts :=
  List.mergeSort_perm facts factLE

lemma sortFacts_pairwise (facts : List Fact) :
    List.Pairwise (fun a c => factLE a c = true) (sortFacts facts) :=
  List.sorted_mergeSort factLE_trans factLE_total facts

lemma factLE_crit_imp {a c : Fact} (h : factLE a c = true) :
    c.critical = true → a.critical = true := by
  intro hc
  by_cases ha : a.critical = true
  · exact ha
  · exfalso
    simp [factLE, critRank, hc, ha] at h

/-- In the sorted working order, every critical fact precedes every
non-critical fact: whenever some later fact is critical, so is every
earlier one. -/
lemma sortFacts_critFirst (facts : List Fact) :
    List.Pairwise (fun a c => c.critical = true → a.critical = true) (sortFacts facts) :=
  (sortFacts_pairwise facts).imp factLE_crit_imp

/-! ### The eviction branch is dead during the critical phase -/

lemma popLastNoncritical_of_allCrit :
    ∀ sel : List Fact, (∀ g ∈ sel, g.critical = true) → popLastNoncritical sel = none := by
  intro sel h
  induction sel with
  | nil => rfl
  | cons f rest ih =>
    have hrest : popLastNoncritical rest = none :=
      ih (fun g hg => h g (List.mem_cons_of_mem f hg))
    have hf : f.critical = true := h f (List.mem_cons_self f rest)
    simp [popLastNoncritical, hrest, hf]

lemma prioStep_eq_greedyStep (b : Int) (sel : List Fact) (used : Int) (f : Fact)
    (hsel : f.critical = true → ∀ g ∈ sel, g.critical = true) :
    prioStep b (sel, used) f = greedyStep b (sel, used) f := by
  unfold prioStep greedyStep
  by_cases hfit : used + (f.token_count : Int) ≤ b
  · simp [hfit]
  · simp only [hfit, if_false]
    by_cases hcrit : f.critical = true
    · rw [popLastNoncritical_of_allCrit sel (hsel hcrit)]
      simp [hcrit, hfit]
    · simp [hcrit]

/-- On any list in which critical facts precede non-critical facts, the
selection loop with the eviction branch computes exactly what the plain
greedy loop computes, provided the current selection is all-critical while
critical facts remain to be processed. -/
lemma foldl_prioStep_eq_greedyStep (b : Int) :
    ∀ (l sel : List Fact) (used : Int),
      List.Pairwise (fun a c => c.critical = true → a.critical = true) l →
      ((∃ f ∈ l, f.critical = true) → ∀ g ∈ sel, g.critical = true) →
      List.foldl (prioStep b) (sel, used) l = List.foldl (greedyStep b) (sel, used) l := by
  intro l
  induction l with
  | nil => intro sel used _ _; rfl
  | cons f rest ih =>
    intro sel used hpw hsel
    obtain ⟨hf, hrest⟩ := List.pairwise_cons.mp hpw
    have hstep : prioStep b (sel, used) f = greedyStep b (sel, used) f :=
      prioStep_eq_greedyStep b sel used f
        (fun hc => hsel ⟨f, List.mem_cons_self f rest, hc⟩)
    rw [List.foldl_cons, List.foldl_cons, hstep]
    by_cases hfit : used + (f.token_count : Int) ≤ b
    · have hg : greedyStep b (sel, used) f = (sel ++ [f], used + (f.token_count : Int)) := by
        simp [greedyStep, hfit]
      rw [hg]
      apply ih (sel ++ [f]) (used + (f.token_count : Int)) hrest
      intro hex g hg'
      obtain ⟨c, hcmem, hccrit⟩ := hex
      have hall : ∀ g ∈ sel, g.critical = true :=
        hsel ⟨c, List.mem_cons_of_mem f hcmem, hccrit⟩
      rcases List.mem_append.mp hg' with h | h
      · exact hall g h
      · rw [List.mem_singleton.mp h]
        exact hf c hcmem hccrit
    · have hg : greedyStep b (sel, used) f = (sel, used) := by
        simp [greedyStep, hfit]
      rw [hg]
      apply ih sel used hrest
      intro hex
      obtain ⟨c, hcmem, hccrit⟩ := hex
      exact hsel ⟨c, List.mem_cons_of_mem f hcmem, hccrit⟩

/-! ### Properties of the greedy loop -/

/-- The greedy loop only ever appends: the final selection extends the
initial one by a subsequence of the processed list. -/
lemma foldl_greedyStep_append (b : Int) :
    ∀ (l sel : List Fact) (used : Int),
      ∃ t, (List.foldl (greedyStep b) (sel, used) l).1 = sel ++ t ∧ t.Sublist l := by
  intro l
  induction l with
  | nil => intro sel used; exact ⟨[], by simp, List.nil_sublist []⟩
  | cons f rest ih =>
    intro sel used
    rw [List.foldl_cons]
    by_cases hfit : used + (f.token_count : Int) ≤ b
    · have hg : greedyStep b (sel, used) f = (sel ++ [f], used + (f.token_count : Int)) := by
        simp [greedyStep, hfit]
      rw [hg]
      obtain ⟨t, ht, hsub⟩ := ih (sel ++ [f]) (used + (f.token_count : Int))
      exact ⟨f :: t, by rw [ht, List.append_assoc]; rfl, List.Sublist.cons₂ f hsub⟩
    · have hg : greedyStep b (sel, used) f = (sel, used) := by
        simp [greedyStep, hfit]
      rw [hg]
      obtain ⟨t, ht, hsub⟩ := ih sel used
      exact ⟨t, ht, List.Sublist.cons f hsub⟩

/-- The greedy loop keeps `used_tokens` equal to the total cost of the
selection and never lets it exceed the budget. -/
lemma foldl_greedyStep_sum (b : Int) :
    ∀ (l sel : List Fact) (used : Int),
      used = (((sel.map (fun f => f.token_count)).sum : Nat) : Int) →
      used ≤ b →
      (List.foldl (greedyStep b) (sel, used) l).2
          = (((((List.foldl (greedyStep b) (sel, used) l).1.map
                (fun f => f.token_count)).sum : Nat)) : Int) ∧
      (List.foldl (greedyStep b) (sel, used) l).2 ≤ b := by
  intro l
  induction l with
  | nil => intro sel used h hle; exact ⟨h, hle⟩
  | cons f rest ih =>
    intro sel used h hle
    rw [List.foldl_cons]
    by_cases hfit : used + (f.token_count : Int) ≤ b
    · have hg : greedyStep b (sel, used) f = (sel ++ [f], used + (f.token_count : Int)) := by
        simp [greedyStep, hfit]
      rw [hg]
      apply ih (sel ++ [f]) (used + (f.token_count : Int)) _ hfit
      rw [h]
      push_cast
      simp
    · have hg : greedyStep b (sel, used) f = (sel, used) := by
        simp [greedyStep, hfit]
      rw [hg]
      exact ih sel used h hle

/-- When the total cost of the remaining facts fits the remaining budget,
the greedy loop accepts every one of them. -/
lemma foldl_greedyStep_all_fit (b : Int) :
    ∀ (C sel : List Fact) (used : Int),
      used + (((C.map (fun f => f.token_count)).sum : Nat) : Int) ≤ b →
      List.foldl (greedyStep b) (sel, used) C
        = (sel ++ C, used + (((C.map (fun f => f.token_count)).sum : Nat) : Int)) := by
  intro C
  induction C with
  | nil => intro sel used _; simp
  | cons c rest ih =>
    intro sel used hfit
    have hsum : (((List.map (fun f => f.token_count) (c :: rest)).sum : Nat) : Int)
        = (c.token_count : Int) + (((rest.map (fun f => f.token_count)).sum : Nat) : Int) := by
      push_cast
      simp
    have hcfit : used + (c.token_count : Int) ≤ b := by
      rw [hsum] at hfit
      have : (0 : Int) ≤ (((rest.map (fun f => f.token_count)).sum : Nat) : Int) := Int.natCast_nonneg _
      omega
    rw [List.foldl_cons]
    have hg : greedyStep b (sel, used) c = (sel ++ [c], used + (c.token_count : Int)) := by
      simp [greedyStep, hcfit]
    rw [hg]
    have hrest : (used + (c.token_count : Int))
        + (((rest.map (fun f => f.token_count)).sum : Nat) : Int) ≤ b := by
      rw [hsum] at hfit
      omega
    rw [ih (sel ++ [c]) (used + (c.token_count : Int)) hrest, hsum, List.append_assoc,
      List.singleton_append, Int.add_assoc]

/-- A list in which critical facts precede non-critical facts splits as its
critical part followed by its non-critical part. -/
lemma critFirst_filter_decomp :
    ∀ l : List Fact, List.Pairwise (fun a c => c.critical = true → a.critical = true) l →
      l = l.filter (fun f => f.critical) ++ l.filter (fun f => !f.critical) := by
  intro l
  induction l with
  | nil => intro _; rfl
  | cons f rest ih =>
    intro hpw
    obtain ⟨hf, hrest⟩ := List.pairwise_cons.mp hpw
    by_cases hcrit : f.critical = true
    · rw [List.filter_cons, List.filter_cons]
      simp only [hcrit, if_true, Bool.not_true, if_false]
      rw [List.cons_append]
      exact congrArg (f :: ·) (ih hrest)
    · have hnone : ∀ c ∈ rest, ¬ c.critical = true := by
        intro c hc hcc
        exact hcrit (hf c hc hcc)
      have h1 : List.filter (fun f => f.critical) (f :: rest) = [] := by
        rw [List.filter_eq_nil_iff]
        intro a ha
        rcases List.mem_cons.mp ha with h | h
        · rw [h]; simp [hcrit]
        · simp [hnone a h]
      have h2 : List.filter (fun f => !f.critical) (f :: rest) = f :: rest := by
        rw [List.filter_eq_self]
        intro a ha
        rcases List.mem_cons.mp ha with h | h
        · rw [h]; simp [hcrit]
        · simp [hnone a h]
      rw [h1, h2, List.nil_append]

lemma refreshFact_eq_of_sameContent {f g : Fact} (h : FactSameContent f g) :
    refreshFact f = refreshFact g := by
  cases f with
  | mk i c cr t =>
    cases g with
    | mk i' c' cr' t' =>
      obtain ⟨h1, h2, h3⟩ := h
      simp only at h1 h2 h3
      subst h1; subst h2; subst h3
      rfl

lemma countTokens_eq_of_sameContent :
    ∀ {l₁ l₂ : List Fact}, List.Forall₂ FactSameContent l₁ l₂ →
      countTokensForAllFacts l₁ = countTokensForAllFacts l₂ := by
  intro l₁ l₂ h
  induction h with
  | nil => rfl
  | cons hfg _ ih =>
    simp only [countTokensForAllFacts, List.map_cons] at *
    rw [refreshFact_eq_of_sameContent hfg, ih]

/-! ### Claims -/

/-- Claim C1: for every fact list and every budget, the eviction branch of
`prioritize` is dead code — since critical facts are sorted before
non-critical ones, the backward scan over the already-selected list never
finds a non-critical entry, so no fact once accepted is ever removed and a
critical fact that does not fit is simply excluded: `prioritize` computes
exactly what the greedy loop with no eviction branch computes. -/
theorem prioritize_never_evicts (facts : List Fact) (target_model : String)
    (max_tokens : Option Int) :
    prioritize facts target_model max_tokens
      = prioritizeNoEvict facts (resolveBudget target_model max_tokens) := by
  unfold prioritize prioritizeWith prioritizeNoEvict
  rw [foldl_prioStep_eq_greedyStep _ (sortFacts facts) [] 0 (sortFacts_critFirst facts)
    (fun _ g hg => absurd hg (List.not_mem_nil g))]

/-- Claim C2 is false as stated: a selection containing a critical fact that
follows a non-critical fact in source order comes back in working order
(critical first), which is not a subsequence of the source order. -/
theorem prioritize_source_order_cex :
    prioritize [⟨"n", "aaaa", false, 1⟩, ⟨"c", "bbbb", true, 1⟩] "gpt-4" (some 100)
        = [⟨"c", "bbbb", true, 1⟩, ⟨"n", "aaaa", false, 1⟩] ∧
    ¬ List.Sublist
        (prioritize [⟨"n", "aaaa", false, 1⟩, ⟨"c", "bbbb", true, 1⟩] "gpt-4" (some 100))
        [⟨"n", "aaaa", false, 1⟩, ⟨"c", "bbbb", true, 1⟩] := by
  have h : prioritize [⟨"n", "aaaa", false, 1⟩, ⟨"c", "bbbb", true, 1⟩] "gpt-4" (some 100)
      = [⟨"c", "bbbb", true, 1⟩, ⟨"n", "aaaa", false, 1⟩] := by
    simp [prioritize, prioritizeWith, sortFacts, resolveBudget, modelTokenLimit,
      MODEL_TOKEN_LIMITS, DEFAULT_TOKEN_LIMIT, List.mergeSort, List.merge, prioStep,
      popLastNoncritical, List.lookup, factLE, critRank]
  exact ⟨h, by rw [h]; decide⟩

/-- Claim C2, amended: the list returned by `prioritize` is ordered by the
working (selection) order — critical facts before non-critical ones, each
group by ascending token count — not by the original source order. -/
theorem prioritize_working_order (facts : List Fact) (target_model : String)
    (max_tokens : Option Int) :
    List.Pairwise (fun a c => factLE a c = true) (prioritize facts target_model max_tokens) := by
  unfold prioritize prioritizeWith
  rw [foldl_prioStep_eq_greedyStep _ (sortFacts facts) [] 0 (sortFacts_critFirst facts)
    (fun _ g hg => absurd hg (List.not_mem_nil g))]
  obtain ⟨t, ht, hsub⟩ :=
    foldl_greedyStep_append (resolveBudget target_model max_tokens) (sortFacts facts) [] 0
  rw [ht, List.nil_append]
  exact List.Pairwise.sublist hsub (sortFacts_pairwise facts)

/-- Claim C3 is false as stated: with `max_tokens = 0` — a budget `≤ 0` —
Python's `or` treats the argument as unspecified and substitutes the model's
limit, so a fact is selected. -/
theorem prioritize_zero_budget_cex :
    prioritize [⟨"f1", "hello", false, 1⟩] "gpt-4" (some 0) ≠ [] := by
  have h : prioritize [⟨"f1", "hello", false, 1⟩] "gpt-4" (some 0)
      = [⟨"f1", "hello", false, 1⟩] := by
    simp [prioritize, prioritizeWith, sortFacts, resolveBudget, modelTokenLimit,
      MODEL_TOKEN_LIMITS, DEFAULT_TOKEN_LIMIT, List.mergeSort, List.merge, prioStep,
      popLastNoncritical, List.lookup]
  rw [h]
  simp

/-- Claim C3, amended: a strictly negative `max_tokens` yields an empty
selection (critical facts included), while `max_tokens = 0` is falsy in
Python and is replaced by the model's default limit. -/
theorem prioritize_negative_budget_empty (facts : List Fact) (target_model : String)
    (mt : Int) (hneg : mt < 0) :
    prioritize facts target_model (some mt) = [] := by
  have hb : resolveBudget target_model (some mt) = mt := by
    simp only [resolveBudget]
    rw [if_neg (by omega)]
  unfold prioritize prioritizeWith
  rw [hb]
  have key : ∀ l : List Fact, List.foldl (prioStep mt) ([], 0) l = ([], 0) := by
    intro l
    induction l with
    | nil => rfl
    | cons f rest ih =>
      rw [List.foldl_cons]
      have hnofit : ¬ ((f.token_count : Int) ≤ mt) := by
        have h0 : (0 : Int) ≤ (f.token_count : Int) := Int.natCast_nonneg _
        omega
      have hstep : prioStep mt ([], (0 : Int)) f = ([], 0) := by
        simp [prioStep, popLastNoncritical, hnofit]
      rw [hstep, ih]
  rw [key (sortFacts facts)]

/-- Witness for `prioritize_negative_budget_empty` at `max_tokens = -1`. -/
theorem prioritize_negative_budget_empty_witness :
    (-1 : Int) < 0 ∧ prioritize [⟨"f1", "hello", false, 1⟩] "gpt-4" (some (-1)) = [] :=
  ⟨by decide, prioritize_negative_budget_empty _ _ _ (by decide)⟩

/-- Claim C4 is false as stated: on a five-character text the estimator
returns `max(1, 5 // 4) = 1`, not `max(1, ceil(5 / 4)) = 2`. -/
theorem estimate_tokens_ceil_cex : estimate_tokens "aaaaa" ≠ specEstimateCeil "aaaaa" := by
  decide

/-- Claim C4, amended: `estimate_tokens` returns exactly
`max(1, floor(length(text) / 4))` — floor division, not ceiling — and in
particular an integer `≥ 1`; the last two conjuncts characterize the floor
without restating the definition. -/
theorem estimate_tokens_floor_formula (s : String) :
    estimate_tokens s = max 1 (s.length / 4) ∧
    1 ≤ estimate_tokens s ∧
    4 * estimate_tokens s ≤ max 4 s.length ∧
    max 4 s.length < 4 * (estimate_tokens s + 1) := by
  unfold estimate_tokens
  refine ⟨rfl, le_max_left 1 _, ?_, ?_⟩ <;> omega

/-- Claim C5: a selection run — engine construction, whose constructor calls
`_count_tokens_for_all_facts`, followed by `prioritize`, as every caller in
agentkeeper.py performs it — depends only on each fact's id, content and
critical flag: any stored `token_count`, stale or not, is overwritten by
`estimate_tokens(content)` before selection, so states disagreeing only on
stored token counts select identically. -/
theorem enginePrioritize_fresh_costs (facts₁ facts₂ : List Fact) (target_model : String)
    (max_tokens : Option Int) (h : List.Forall₂ FactSameContent facts₁ facts₂) :
    enginePrioritize facts₁ target_model max_tokens
      = enginePrioritize facts₂ target_model max_tokens := by
  unfold enginePrioritize
  rw [countTokens_eq_of_sameContent h]

/-- Witness for `enginePrioritize_fresh_costs`: a state whose stored
`token_count` (999) disagrees with the estimator selects exactly like the
same state with `token_count = 0`. -/
theorem enginePrioritize_fresh_costs_witness :
    List.Forall₂ FactSameContent [⟨"a", "hello", true, 999⟩] [⟨"a", "hello", true, 0⟩] ∧
    enginePrioritize [⟨"a", "hello", true, 999⟩] "gpt-4" none
      = enginePrioritize [⟨"a", "hello", true, 0⟩] "gpt-4" none :=
  ⟨List.Forall₂.cons ⟨rfl, rfl, rfl⟩ List.Forall₂.nil,
   enginePrioritize_fresh_costs _ _ _ _ (List.Forall₂.cons ⟨rfl, rfl, rfl⟩ List.Forall₂.nil)⟩

/-- Claim C6: whenever the budget is positive and at least the total cost of
all critical facts, every critical fact is selected by `prioritize` — the
critical facts are processed first and each fits when its turn comes. -/
theorem prioritize_critical_sufficiency (facts : List Fact) (target_model : String)
    (mt : Int) (hpos : 0 < mt)
    (hsum : ((((facts.filter (fun f => f.critical)).map (fun f => f.token_count)).sum : Nat) : Int) ≤ mt) :
    ∀ f ∈ facts, f.critical = true → f ∈ prioritize facts target_model (some mt) := by
  intro f hmem hcrit
  have hb : resolveBudget target_model (some mt) = mt := by
    simp only [resolveBudget]
    rw [if_neg (by omega)]
  unfold prioritize prioritizeWith
  rw [hb, foldl_prioStep_eq_greedyStep mt (sortFacts facts) [] 0 (sortFacts_critFirst facts)
    (fun _ g hg => absurd hg (List.not_mem_nil g))]
  have hdec := critFirst_filter_decomp (sortFacts facts) (sortFacts_critFirst facts)
  have hperm : ((sortFacts facts).filter (fun f => f.critical)).Perm
      (facts.filter (fun f => f.critical)) :=
    (sortFacts_perm facts).filter _
  have hsumC : (((((sortFacts facts).filter (fun f => f.critical)).map
      (fun f => f.token_count)).sum : Nat) : Int) ≤ mt := by
    have he : (((sortFacts facts).filter (fun f => f.critical)).map (fun f => f.token_count)).sum
        = ((facts.filter (fun f => f.critical)).map (fun f => f.token_count)).sum :=
      (hperm.map (fun f => f.token_count)).sum_eq
    rw [he]
    exact hsum
  rw [hdec, List.foldl_append,
    foldl_greedyStep_all_fit mt ((sortFacts facts).filter (fun f => f.critical)) [] 0
      (by simpa using hsumC)]
  obtain ⟨t, ht, _⟩ := foldl_greedyStep_append mt ((sortFacts facts).filter (fun f => !f.critical))
    ([] ++ (sortFacts facts).filter (fun f => f.critical))
    (0 + ((((sortFacts facts).filter (fun f => f.critical)).map (fun f => f.token_count)).sum : Nat))
  rw [ht]
  have hfC : f ∈ (sortFacts facts).filter (fun f => f.critical) := by
    rw [hperm.mem_iff, List.mem_filter]
    exact ⟨hmem, hcrit⟩
  simp [List.mem_append, hfC]

/-- Witness for `prioritize_critical_sufficiency`: a critical fact of cost 2
under budget 2, next to a non-critical cost-3 fact, is selected. -/
theorem prioritize_critical_sufficiency_witness :
    (0 : Int) < 2 ∧
    ((((([⟨"a", "x", true, 2⟩, ⟨"b", "y", false, 3⟩] : List Fact).filter
        (fun f => f.critical)).map (fun f => f.token_count)).sum : Nat) : Int) ≤ 2 ∧
    (⟨"a", "x", true, 2⟩ : Fact)
      ∈ prioritize [⟨"a", "x", true, 2⟩, ⟨"b", "y", false, 3⟩] "gpt-4" (some 2) :=
  ⟨by decide, by decide,
   prioritize_critical_sufficiency _ _ _ (by decide) (by decide) _ (by decide) (by decide)⟩

/-- Claim C7: for a positive budget the total cost of the selection never
exceeds the budget, and no individual selected fact costs more than the
whole budget — an oversized fact is never selected even as the only item. -/
theorem prioritize_budget_invariant (facts : List Fact) (target_model : String)
    (mt : Int) (hpos : 0 < mt) :
    ((((prioritize facts target_model (some mt)).map (fun f => f.token_count)).sum : Nat) : Int) ≤ mt ∧
    ∀ f ∈ prioritize facts target_model (some mt), (f.token_count : Int) ≤ mt := by
  have hb : resolveBudget target_model (some mt) = mt := by
    simp only [resolveBudget]
    rw [if_neg (by omega)]
  unfold prioritize prioritizeWith
  rw [hb, foldl_prioStep_eq_greedyStep mt (sortFacts facts) [] 0 (sortFacts_critFirst facts)
    (fun _ g hg => absurd hg (List.not_mem_nil g))]
  obtain ⟨hsum, hle⟩ := foldl_greedyStep_sum mt (sortFacts facts) [] 0 (by simp) (by omega)
  constructor
  · rw [← hsum]
    exact hle
  · intro f hf
    have h1 : f.token_count
        ≤ ((List.foldl (greedyStep mt) ([], 0) (sortFacts facts)).1.map
            (fun f => f.token_count)).sum :=
      List.single_le_sum (fun x _ => Nat.zero_le x) _ (List.mem_map_of_mem _ hf)
    have h2 : ((((List.foldl (greedyStep mt) ([], 0) (sortFacts facts)).1.map
        (fun f => f.token_count)).sum : Nat) : Int) ≤ mt := by
      rw [← hsum]
      exact hle
    have h1' : (f.token_count : Int)
        ≤ ((((List.foldl (greedyStep mt) ([], 0) (sortFacts facts)).1.map
            (fun f => f.token_count)).sum : Nat) : Int) := by
      exact_mod_cast h1
    omega

/-- Witness for `prioritize_budget_invariant`: one fact of cost 5 under
budget 3 — the selection is empty and stays within budget. -/
theorem prioritize_budget_invariant_witness :
    (0 : Int) < 3 ∧
    ((((prioritize [⟨"a", "xx", false, 5⟩] "gpt-4" (some 3)).map
        (fun f => f.token_count)).sum : Nat) : Int) ≤ 3 :=
  ⟨by decide, (prioritize_budget_invariant [⟨"a", "xx", false, 5⟩] "gpt-4" 3 (by decide)).1⟩

/-- Claim C8 is false as stated: `Agent.forget` removes a fact (the fact list
becomes empty) yet `updated_at` keeps its previous value — removal does not
refresh the last-updated timestamp. -/
theorem forget_refresh_cex :
    (forget ⟨"agent", [⟨"f1", "note", false, 0⟩], "t_created", "t0"⟩ "f1").memory_facts = [] ∧
    (forget ⟨"agent", [⟨"f1", "note", false, 0⟩], "t_created", "t0"⟩ "f1").updated_at = "t0" := by
  constructor
  · simp [forget]
  · rfl

/-- Claim C8, amended: `add_fact` sets `updated_at` to the current time, but
`Agent.forget` leaves `updated_at` unchanged even when a removal occurred,
and read-only selection (engine construction plus `prioritize`) leaves
`updated_at` unchanged as well. -/
theorem updated_at_mutation_discipline :
    (∀ (cso : CognitiveStateObject) (id content : String) (critical : Bool) (now : String),
        (add_fact cso id content critical now).updated_at = now) ∧
    (∀ (cso : CognitiveStateObject) (fact_id : String),
        (forget cso fact_id).updated_at = cso.updated_at) ∧
    (∀ cso : CognitiveStateObject, (engineInitState cso).updated_at = cso.updated_at) :=
  ⟨fun _ _ _ _ _ => rfl, fun _ _ => rfl, fun _ => rfl⟩

/-- Claim C9: deserializing a serialized state — `from_dict (to_dict cso)`,
the round-trip underlying save then load — reproduces the state exactly:
same agent id, same timestamps, and the same fact sequence with identical
ids, contents, critical flags, token counts and order. -/
theorem from_dict_to_dict_roundtrip (cso : CognitiveStateObject) :
    from_dict (to_dict cso) = cso := by
  cases cso with
  | mk aid facts c u =>
    have h : ∀ f : Fact, factFromDict (factToDict f) = f := by
      intro f
      cases f
      rfl
    simp [from_dict, to_dict, List.map_map, Function.comp_def, h]

/-- Claim C10: the cost estimator is total and returns at least 1 on every
string; in particular the empty string costs 1, so a fact with empty content
is assigned a positive cost by the engine's refresh. -/
theorem estimate_tokens_total_pos :
    (∀ s : String, 1 ≤ estimate_tokens s) ∧ estimate_tokens "" = 1 ∧
    (∀ f : Fact, 1 ≤ (refreshFact f).token_count) :=
  ⟨fun _ => le_max_left 1 _, by decide, fun _ => le_max_left 1 _⟩

end AgentKeeper
